import Mathlib

/-!
# grants-stack-indexer — verification of the event-to-changeset spec

Shallow embedding of the repository's event handling code:

* `Keccak` — executable keccak-256, embedding the `ethers.utils.solidityKeccak256`
  calls made by `src/handleEvent.ts` (`fullProjectId`, vote ids); machine words
  are `Nat` masked to 64 bits.
* `Legacy` — the direct-mutation handler `src/handleEvent.ts` (`handleEvent`):
  events, the JSON storage collections it touches, and one Lean function per
  `switch` case, with the read snapshot (ipfs fetches, contract reads, price
  lookups) passed explicitly and the wall clock (`new Date()`) an explicit
  parameter.
* `AlloV1` — the changeset-producing handler whose tests live at
  `src/indexer/allo/v1/handleEvent.test.ts`; its source is not in the tree, so
  it is modelled from the spec (§4.2–§4.3) with the role-hash constants pinned
  by those tests.
* `Prices` — `chunkTimeBy` from the price updater service.
-/

namespace Keccak

/-- 64-bit mask; lanes are `Nat`s kept below `2^64`. -/
def mask64 : Nat := 2 ^ 64 - 1

/-- Rotate a 64-bit lane left by `n` (with `n < 64`). -/
def rotl64 (x n : Nat) : Nat :=
  ((x <<< n) ||| (x >>> (64 - n))) &&& mask64

/-- Lane of the 5×5 state (flattened to a 25-element list, index `x + 5*y`). -/
def lane (s : List Nat) (x y : Nat) : Nat := s.getD (x + 5 * y) 0

/-- θ step of keccak-f[1600]. -/
def theta (s : List Nat) : List Nat :=
  let c := (List.range 5).map fun x =>
    lane s x 0 ^^^ lane s x 1 ^^^ lane s x 2 ^^^ lane s x 3 ^^^ lane s x 4
  let d := (List.range 5).map fun x =>
    c.getD ((x + 4) % 5) 0 ^^^ rotl64 (c.getD ((x + 1) % 5) 0) 1
  (List.range 25).map fun i => s.getD i 0 ^^^ d.getD (i % 5) 0

/-- Rotation offsets `r[x][y]`, flattened with index `x + 5*y`: generated by
walking the π orbit from lane (1,0), assigning `(t+1)(t+2)/2 mod 64` at step
`t`; lane (0,0) keeps offset 0. -/
def rotOffsets : List Nat :=
  ((List.range 24).foldl
    (fun (acc : List Nat × Nat × Nat) t =>
      let tab := acc.1
      let x := acc.2.1
      let y := acc.2.2
      (tab.set (x + 5 * y) ((t + 1) * (t + 2) / 2 % 64), y, (2 * x + 3 * y) % 5))
    (List.replicate 25 0, 1, 0)).1

/-- Combined ρ∘π step: output lane `(X,Y)` is the rotated input lane
`(x,y) = ((X + 3Y) % 5, X)`. -/
def rhoPi (s : List Nat) : List Nat :=
  (List.range 25).map fun i =>
    let X := i % 5
    let Y := i / 5
    let x := (X + 3 * Y) % 5
    let y := X
    rotl64 (lane s x y) (rotOffsets.getD (x + 5 * y) 0)

/-- χ step; complement is xor with the 64-bit mask. -/
def chi (s : List Nat) : List Nat :=
  (List.range 25).map fun i =>
    let X := i % 5
    let Y := i / 5
    s.getD i 0 ^^^
      ((s.getD ((X + 1) % 5 + 5 * Y) 0 ^^^ mask64) &&& s.getD ((X + 2) % 5 + 5 * Y) 0)

/-- ι step: xor the round constant into lane (0,0). -/
def iota (rc : Nat) (s : List Nat) : List Nat :=
  s.set 0 (s.getD 0 0 ^^^ rc)

/-- State of the degree-8 LFSR (`x^8 + x^6 + x^5 + x^4 + 1`) that generates
the ι round constants, after `t` steps from the initial state 1. -/
def lfsrState : Nat → Nat
  | 0 => 1
  | t + 1 =>
      let r := lfsrState t <<< 1
      if r &&& 0x100 == 0x100 then (r ^^^ 0x171) &&& 0xff else r

/-- The `i`-th ι round constant: bit `2^j - 1` is the LFSR output at step
`j + 7*i`, for `j = 0 … 6`. -/
def roundConstant (i : Nat) : Nat :=
  (List.range 7).foldl
    (fun acc j => if lfsrState (j + 7 * i) % 2 == 1 then acc ||| (1 <<< (2 ^ j - 1)) else acc) 0

/-- The 24 round constants of keccak-f[1600]. -/
def roundConstants : List Nat :=
  (List.range 24).map roundConstant

/-- One permutation keccak-f[1600]: 24 rounds of θ, ρπ, χ, ι. -/
def keccakF (s : List Nat) : List Nat :=
  roundConstants.foldl (fun s rc => iota rc (chi (rhoPi (theta s)))) s

/-- keccak (pre-NIST) padding for rate 1088 bits = 136 bytes: `0x01 … 0x80`,
collapsing to a single `0x81` byte when only one pad byte fits. -/
def pad (m : List Nat) : List Nat :=
  let r := 136
  let padLen := r - m.length % r
  if padLen == 1 then m ++ [0x81]
  else m ++ [0x01] ++ List.replicate (padLen - 2) 0 ++ [0x80]

/-- Little-endian bytes → 64-bit lane. -/
def laneOfBytes (l : List Nat) : Nat :=
  (l.take 8).foldr (fun b acc => b + 256 * acc) 0

/-- Split into 136-byte rate blocks (fuel-driven structural recursion; the
input's length is always a positive multiple of 136 after padding). -/
def chunksGo : Nat → List Nat → List (List Nat)
  | 0, _ => []
  | _, [] => []
  | fuel + 1, l => l.take 136 :: chunksGo fuel (l.drop 136)

def chunks (l : List Nat) : List (List Nat) := chunksGo l.length l

/-- Xor one 136-byte block into the first 17 lanes of the state. -/
def absorbBlock (s : List Nat) (b : List Nat) : List Nat :=
  (List.range 25).map fun j =>
    if j < 17 then s.getD j 0 ^^^ laneOfBytes (b.drop (8 * j)) else s.getD j 0

/-- 64-bit lane → 8 little-endian bytes. -/
def laneToBytes (x : Nat) : List Nat :=
  (List.range 8).map fun k => (x >>> (8 * k)) &&& 255

/-- keccak-256 over a byte list: pad, absorb all blocks into the zero state,
squeeze the first 32 bytes. -/
def keccak256 (m : List Nat) : List Nat :=
  let final := (chunks (pad m)).foldl (fun s b => keccakF (absorbBlock s b)) (List.replicate 25 0)
  (final.take 4).foldr (fun x acc => laneToBytes x ++ acc) []

/-- Lower-case hex digit. -/
def hexDigit (n : Nat) : Char :=
  if n < 10 then Char.ofNat (48 + n) else Char.ofNat (87 + n)

/-- Byte list → lower-case hex string (no prefix). -/
def bytesToHex (l : List Nat) : String :=
  l.foldl (fun acc b => acc.push (hexDigit (b / 16 % 16)) |>.push (hexDigit (b % 16))) ""

/-- Value of one hex character (0 for non-hex characters, matching a lenient
parse; the repository only ever feeds well-formed `0x…` addresses). -/
def hexCharVal (c : Char) : Nat :=
  if 48 ≤ c.toNat ∧ c.toNat ≤ 57 then c.toNat - 48
  else if 97 ≤ c.toNat ∧ c.toNat ≤ 102 then c.toNat - 87
  else if 65 ≤ c.toNat ∧ c.toNat ≤ 70 then c.toNat - 55
  else 0

/-- Hex character pairs → bytes. -/
def hexPairs : List Char → List Nat
  | c1 :: c2 :: rest => (16 * hexCharVal c1 + hexCharVal c2) :: hexPairs rest
  | _ => []

/-- Parse a `0x…` hex string into its byte list. -/
def hexToBytes (s : String) : List Nat :=
  hexPairs (s.drop 2).data

/-- Big-endian fixed-width byte encoding of a `Nat` (`abi.encodePacked`). -/
def natToBytesBE (width n : Nat) : List Nat :=
  (List.range width).map fun k => (n >>> (8 * (width - 1 - k))) &&& 255

/-- `ethers.utils.solidityKeccak256(["uint256","address","uint256"], [a, addr, b])`:
keccak-256 of the packed encoding, rendered as a `0x…` hex string. -/
def solidityKeccakUintAddressUint (a : Nat) (addr : String) (b : Nat) : String :=
  "0x" ++ bytesToHex (keccak256 (natToBytesBE 32 a ++ hexToBytes addr ++ natToBytesBE 32 b))

/-- `ethers.utils.solidityKeccak256(["string"], [s])`: keccak-256 of the
string's bytes (embedded for the ASCII strings the handler builds). -/
def solidityKeccakString (s : String) : String :=
  "0x" ++ bytesToHex (keccak256 (s.data.map Char.toNat))

end Keccak

/-- `fullProjectId` from `src/handleEvent.ts`: the solidity keccak-256 of
`(projectChainId, projectRegistryAddress, projectId)` packed as
`uint256 ++ address ++ uint256`. -/
def fullProjectId (projectChainId : Nat) (projectId : Nat)
    (projectRegistryAddress : String) : String :=
  Keccak.solidityKeccakUintAddressUint projectChainId projectRegistryAddress projectId

/-- JSON metadata values as fetched from ipfs and stored opaquely by the
handlers (`cachedIpfs` results are only ever stored, never inspected). -/
inductive Json
  | null
  | bool (b : Bool)
  | num (n : Int)
  | str (s : String)
  | arr (l : List Json)
  | obj (l : List (String × Json))

namespace Legacy

/-- `metaPtr` values `{protocol, pointer}` as returned by contract reads. -/
structure MetaPtr where
  protocol : Nat
  pointer : String
deriving DecidableEq

/-- A record of the `projects` collection, as written by `ProjectCreated`
(`metadata` is absent until `MetadataUpdated` adds it). -/
structure Project where
  fullId : String
  id : Nat
  metaPtr : Option String
  votesUSD : ℚ
  votes : Nat
  owners : List String
  metadata : Option Json := none

/-- A record of the `rounds` collection, as written by `RoundCreated`. The
time fields are stored via `.toString()` in the source and read back
numerically by `Voted`; they are embedded as their numeric values. -/
structure Round where
  id : String
  votesUSD : ℚ
  votes : Nat
  implementationAddress : String
  applicationMetaPtr : MetaPtr
  applicationMetadata : Json
  applicationsStartTime : Nat
  applicationsEndTime : Nat
  roundStartTime : Nat
  roundEndTime : Nat

/-- A record of a `rounds/{round}/projects` collection. -/
structure RoundProject where
  id : String
  projectId : Option Nat
  roundId : String
  status : Option String
  payoutAddress : Option String := none
deriving DecidableEq

/-- A vote record as built by the `Voted` case. `amountUSD` is the JS float
`Number(formatUnits(amount, 18)) * price`, embedded as the exact rational. -/
structure Vote where
  id : String
  token : String
  voter : String
  grantAddress : String
  amount : Nat
  amountUSD : ℚ
  fullProjectId : String
  roundAddress : String
  projectApplicationId : String
deriving DecidableEq

/-- The JSON storage collections the legacy handler touches. The per-round
collections `rounds/{r}/projects`, `rounds/{r}/votes` and
`rounds/{r}/projects/{p}/votes` are embedded as association lists keyed by the
path components. `insert` appends. -/
structure DB where
  projects : List Project
  rounds : List Round
  roundProjects : List (String × RoundProject)
  roundVotes : List (String × Vote)
  roundProjectVotes : List (String × String × Vote)

/-- The decoded `event.args` bag: a flat record holding every field the legacy
handler reads (the TS object is dynamic; each case reads only its own
fields). `metaPtrPointer` is `args.metaPtr.pointer`, `newMetaPtrPointer` is
`args.newMetaPtr.pointer`. -/
structure Args where
  projectID : Nat := 0
  owner : String := ""
  metaPtrPointer : String := ""
  newMetaPtrPointer : String := ""
  roundAddress : String := ""
  roundImplementation : String := ""
  votingContractAddress : String := ""
  project : String := ""
  projectId : String := ""
  token : String := ""
  voter : String := ""
  grantAddress : String := ""
  amount : Nat := 0
deriving DecidableEq

/-- A chainsauce event as consumed by the legacy handler. -/
structure Event where
  name : String
  address : String := ""
  blockNumber : Nat := 0
  transactionHash : String := ""
  args : Args := {}
deriving DecidableEq

/-- One entry of the JSON list fetched by `ProjectsMetaPtrUpdated`. -/
structure AppStatus where
  id : String
  status : String
  payoutAddress : String
deriving DecidableEq

/-- The fixed read snapshot: results of every external call the handler can
issue. `ipfs` is the `cachedIpfs` metadata fetch, `ipfsApplications` the same
fetch decoded as the application-status list, the five round getters are the
`RoundImplementation` contract reads, and `price` is `getPrice` keyed by
`(token, chainId, fromTimestamp, toTimestamp)`. `none` models a rejected
call. -/
structure Snapshot where
  ipfs : String → Option Json
  ipfsApplications : String → Option (List AppStatus)
  applicationMetaPtr : String → Option MetaPtr
  applicationsStartTime : String → Option Nat
  applicationsEndTime : String → Option Nat
  roundStartTime : String → Option Nat
  roundEndTime : String → Option Nat
  price : String → Nat → Nat → Nat → Option ℚ

/-- A thrown exception, as surfaced to the caller of `handleEvent`. -/
inductive Err
  | fetchFailed (cid : String)
  | readFailed (addr : String)
  | priceFailed (token : String)
  | notFound (id : String)
deriving DecidableEq

/-- Whether an error came from an external read or fetch (as opposed to the
storage layer's `updateById` throwing on a missing record). -/
def Err.isExternal : Err → Bool
  | .fetchFailed _ | .readFailed _ | .priceFailed _ => true
  | .notFound _ => false

/-- `JsonStorage.updateById` on the `projects` collection: rewrites the
matching records, and throws when no record has the id (the source wraps the
`MetadataUpdated` call in try/catch logging "Project not found", so a missing
id is a thrown error at the other call sites). -/
def updateProjectById (db : DB) (pid : Nat) (f : Project → Project) : DB × Option Err :=
  if db.projects.any fun p => p.id == pid then
    ({ db with projects := db.projects.map fun p => if p.id == pid then f p else p }, none)
  else (db, some (.notFound (toString pid)))

/-- The `rounds/{addr}/projects` update loop of `ProjectsMetaPtrUpdated`: for
each fetched entry, update the application whose id is the part of
`entry.id` before the first `-`; `updateById` throws on a missing id, so
later entries are not processed and earlier updates stay applied. -/
def applyAppStatuses (roundAddr : String) : List AppStatus → DB → DB × Option Err
  | [], db => (db, none)
  | pa :: rest, db =>
      let pid := (pa.id.splitOn "-").headD ""
      if db.roundProjects.any fun rp => rp.1 == roundAddr && rp.2.id == pid then
        applyAppStatuses roundAddr rest
          { db with roundProjects := db.roundProjects.map fun rp =>
              if rp.1 == roundAddr && rp.2.id == pid then
                (rp.1,
                 { rp.2 with status := some pa.status, payoutAddress := some pa.payoutAddress })
              else rp }
      else (db, some (.notFound pid))

/-- The project application the `Voted` case looks up:
`findOneWhere(project.id == event.args.projectId)` on
`rounds/{event.args.roundAddress}/projects`. -/
def votedApplication (db : DB) (e : Event) : Option RoundProject :=
  ((db.roundProjects.filter fun rp => rp.1 == e.args.roundAddress).find? fun rp =>
    rp.2.id == e.args.projectId).map (·.2)

/-- The round the `Voted` case looks up: `findById(event.args.roundAddress)`
on `rounds`. -/
def votedRound (db : DB) (e : Event) : Option Round :=
  db.rounds.find? fun r => r.id == e.args.roundAddress

/-- The `Voted` case. `now` is the millisecond clock read by `new Date()`;
the guard returns without mutating when the application is missing, not
`APPROVED`, or the round is missing; otherwise `convertToUSD` runs with
`fromTimestamp = floor(startDate/1000)` and
`toTimestamp = floor(min(now, endDate)/1000)` and the vote is inserted into
both votes collections. -/
def handleVoted (chainId now : Nat) (e : Event) (s : Snapshot) (db : DB) :
    DB × Option Err :=
  let projectApplicationId := e.args.projectId ++ "-" ++ e.args.roundAddress
  let voteId := Keccak.solidityKeccakString
    (e.transactionHash ++ "-" ++ e.args.voter ++ "-" ++ e.args.grantAddress)
  match votedApplication db e, votedRound db e with
  | some pa, some round =>
      if pa.status == some "APPROVED" then
        let fromTs := round.roundStartTime * 1000 / 1000
        let toTs := min now (round.roundEndTime * 1000) / 1000
        match s.price e.args.token.toLower chainId fromTs toTs with
        | none => (db, some (.priceFailed e.args.token))
        | some price =>
            let vote : Vote :=
              { id := voteId
                token := e.args.token
                voter := e.args.voter
                grantAddress := e.args.grantAddress
                amount := e.args.amount
                amountUSD := (e.args.amount : ℚ) / 10 ^ 18 * price
                fullProjectId := e.args.projectId
                roundAddress := e.args.roundAddress
                projectApplicationId := projectApplicationId }
            ({ db with
                roundVotes := db.roundVotes ++ [(e.args.roundAddress, vote)]
                roundProjectVotes := db.roundProjectVotes ++
                  [(e.args.roundAddress, e.args.projectId, vote)] }, none)
      else (db, none)
  | _, _ => (db, none)

/-- `handleEvent` from `src/handleEvent.ts`. `chainId` is `indexer.chainId`,
`now` the wall clock in milliseconds (`new Date()` in the `Voted` case), `s`
the fixed snapshot of external reads, `db` the storage. The result is the
storage after the call plus `some err` when the handler threw (the `db`
component then holds whatever mutations preceded the throw).
`indexer.subscribe` (in `RoundCreated` and `VotingContractCreated`) only
registers a contract subscription and touches no storage, so it is not
modelled. -/
def handleEvent (chainId now : Nat) (e : Event) (s : Snapshot) (db : DB) :
    DB × Option Err :=
  match e.name with
  | "ProjectCreated" =>
      ({ db with projects := db.projects ++
        [{ fullId := fullProjectId chainId e.args.projectID e.address
           id := e.args.projectID
           metaPtr := none
           votesUSD := 0
           votes := 0
           owners := [e.args.owner] }] }, none)
  | "MetadataUpdated" =>
      match s.ipfs e.args.metaPtrPointer with
      | none => (db, some (.fetchFailed e.args.metaPtrPointer))
      | some metadata =>
          if db.projects.any fun p => p.id == e.args.projectID then
            ({ db with projects := db.projects.map fun p =>
                if p.id == e.args.projectID then
                  { p with metaPtr := some e.args.metaPtrPointer,
                           metadata := some metadata }
                else p }, none)
          else (db, none)
  | "OwnerAdded" =>
      updateProjectById db e.args.projectID fun p =>
        { p with owners := p.owners ++ [e.args.owner] }
  | "OwnerRemoved" =>
      updateProjectById db e.args.projectID fun p =>
        { p with owners := p.owners.filter fun o => o == e.args.owner }
  | "RoundCreated" =>
      match s.applicationMetaPtr e.args.roundAddress with
      | none => (db, some (.readFailed e.args.roundAddress))
      | some amp =>
      match s.ipfs amp.pointer with
      | none => (db, some (.fetchFailed amp.pointer))
      | some applicationMetadata =>
      match s.applicationsStartTime e.args.roundAddress,
            s.applicationsEndTime e.args.roundAddress,
            s.roundStartTime e.args.roundAddress,
            s.roundEndTime e.args.roundAddress with
      | some ast, some aet, some rst, some ret =>
          ({ db with rounds := db.rounds ++
            [{ id := e.args.roundAddress
               votesUSD := 0
               votes := 0
               implementationAddress := e.args.roundImplementation
               applicationMetaPtr := amp
               applicationMetadata := applicationMetadata
               applicationsStartTime := ast
               applicationsEndTime := aet
               roundStartTime := rst
               roundEndTime := ret }] }, none)
      | _, _, _, _ => (db, some (.readFailed e.args.roundAddress))
  | "NewProjectApplication" =>
      let project := db.projects.find? fun p => p.fullId == e.args.project
      ({ db with roundProjects := db.roundProjects ++
        [(e.address, { id := e.args.project
                       projectId := project.map (·.id)
                       roundId := e.address
                       status := none })] }, none)
  | "ProjectsMetaPtrUpdated" =>
      match s.ipfsApplications e.args.newMetaPtrPointer with
      | none => (db, some (.fetchFailed e.args.newMetaPtrPointer))
      | some projects => applyAppStatuses e.address projects db
  | "VotingContractCreated" => (db, none)
  | "Voted" => handleVoted chainId now e s db
  | _ => (db, none)

end Legacy

namespace AlloV1

/-- Modelled from the spec: the Project entity of §3 as carried by an
`InsertProject` changeset (the allo/v1 changeset handler itself is not in the
tree; only its tests are). -/
structure Project where
  chainId : Nat
  id : String
  name : String
  metadata : Option Json
  metadataCid : Option String
  projectNumber : Option Nat
  registryAddress : String
  tags : List String
  createdAtBlock : Nat
  updatedAtBlock : Nat

/-- Modelled from the spec: the ProjectRole entity of §3. -/
structure ProjectRole where
  chainId : Nat
  projectId : String
  address : String
  role : String
  createdAtBlock : Nat
deriving DecidableEq

/-- Modelled from the spec: the key of a bulk
`DeleteAllProjectRolesByRoleAndAddress` changeset (§3: role rows are removed
in bulk by role and address, with no `createdAtBlock`). -/
structure ProjectRoleKey where
  chainId : Nat
  projectId : String
  address : String
  role : String
deriving DecidableEq

/-- Modelled from the spec: the RoundRole entity of §3. -/
structure RoundRole where
  chainId : Nat
  roundId : String
  address : String
  role : String
  createdAtBlock : Nat
deriving DecidableEq

/-- Modelled from the spec: the key of a bulk
`DeleteAllRoundRolesByRoleAndAddress` changeset. -/
structure RoundRoleKey where
  chainId : Nat
  roundId : String
  address : String
  role : String
deriving DecidableEq

/-- Modelled from the spec: the changeset variants of §4.3 that the claims
under verification exercise (projects and roles; rounds/applications/votes
changesets are outside these claims). -/
inductive Changeset
  | insertProject (project : Project)
  | updateProject (chainId : Nat) (projectId : String) (metadataCid : String) (metadata : Json)
  | insertProjectRole (projectRole : ProjectRole)
  | deleteAllProjectRolesByRoleAndAddress (projectRole : ProjectRoleKey)
  | insertRoundRole (roundRole : RoundRole)
  | deleteAllRoundRolesByRoleAndAddress (roundRole : RoundRoleKey)

/-- Modelled from the spec: the decoded `params` of the events the claims
exercise (§6), as a flat bag like the legacy `Args`. -/
structure Params where
  projectID : Nat := 0
  owner : String := ""
  role : String := ""
  account : String := ""
  sender : String := ""
deriving DecidableEq

/-- Modelled from the spec: the event record of §6. -/
structure Event where
  chainId : Nat
  contractName : String
  name : String
  address : String := ""
  blockNumber : Nat := 0
  params : Params := {}
deriving DecidableEq

/-- The all-zero role constant (§4.2: always the entity's top role). -/
def zeroRole : String :=
  "0x0000000000000000000000000000000000000000000000000000000000000000"

/-- The program secondary role constant, pinned by the
`ProgramImplementation/V1` RoleGranted member test. -/
def programMemberRole : String :=
  "0xaa630204f2780b6f080cc77cc0e9c0a5c21e92eb0c6771e709255dd27d6de132"

/-- The round operator role constant, pinned by the `RoundImplementation`
manager tests: both the V1 and the V2 tests grant and revoke the manager
role with this same hash. -/
def roundOperatorRole : String :=
  "0xec61da14b5abbac5c5fda6f1d57642a264ebd5d0674f35852829746dfb8174a5"

/-- Modelled from the spec (§4.2): the top role of each known
`(contract family, version)` pair — `owner` for programs, `admin` for
rounds. -/
def topRole : String → Option String
  | "AlloV1/ProgramImplementation/V1" => some "owner"
  | "AlloV1/RoundImplementation/V1" => some "admin"
  | "AlloV1/RoundImplementation/V2" => some "admin"
  | _ => none

/-- Modelled from the spec (§4.2): the secondary role of each known pair —
`member` for programs, `manager` for rounds. -/
def secondaryRole : String → Option String
  | "AlloV1/ProgramImplementation/V1" => some "member"
  | "AlloV1/RoundImplementation/V1" => some "manager"
  | "AlloV1/RoundImplementation/V2" => some "manager"
  | _ => none

/-- Modelled from the spec (§4.2): the version-specific secondary role
constant of each known pair, with the concrete hashes pinned by the tests
(`src/indexer/allo/v1/handleEvent.test.ts`). -/
def secondaryRoleConstant : String → Option String
  | "AlloV1/ProgramImplementation/V1" => some programMemberRole
  | "AlloV1/RoundImplementation/V1" => some roundOperatorRole
  | "AlloV1/RoundImplementation/V2" => some roundOperatorRole
  | _ => none

/-- Modelled from the spec (§4.2): table-driven role resolution. The all-zero
constant maps to the top role, the version-specific secondary constant to the
secondary role, anything else to no mapping. -/
def resolveRole (contractName roleConstant : String) : Option String :=
  if roleConstant == zeroRole then topRole contractName
  else if some roleConstant == secondaryRoleConstant contractName then
    secondaryRole contractName
  else none

/-- Modelled from the spec: whether a RoleGranted/RoleRevoked contract scopes
roles to a project (program) or to a round. -/
inductive EntityKind | program | round
deriving DecidableEq

def entityKind : String → Option EntityKind
  | "AlloV1/ProgramImplementation/V1" => some .program
  | "AlloV1/RoundImplementation/V1" => some .round
  | "AlloV1/RoundImplementation/V2" => some .round
  | _ => none

/-- Modelled from the spec (§4.3, dispatch table rows `ProjectCreated`,
`RoleGranted`, `RoleRevoked`): the changeset compiler for the events the
claims exercise. `ProjectCreated` derives the project id and emits
`InsertProject` (empty name, tag `allo-v1`, no metadata) followed by
`InsertProjectRole(owner)`. `RoleGranted`/`RoleRevoked` resolve the role
constant through §4.2 and emit the matching insert or bulk delete scoped to
the contract's own address; an unknown role constant yields an empty output,
not an error. The events modelled here issue no reads or fetches, so the
compiler returns plain changesets (failure aborts with an error only for
fetching events, none of which these claims exercise). -/
def handleEvent (e : Event) : Except String (List Changeset) :=
  match e.name with
  | "ProjectCreated" =>
      if e.contractName == "AlloV1/ProjectRegistry/V1"
          || e.contractName == "AlloV1/ProjectRegistry/V2" then
        let id := fullProjectId e.chainId e.params.projectID e.address
        .ok [.insertProject
               { chainId := e.chainId
                 id := id
                 name := ""
                 metadata := none
                 metadataCid := none
                 projectNumber := some e.params.projectID
                 registryAddress := e.address
                 tags := ["allo-v1"]
                 createdAtBlock := e.blockNumber
                 updatedAtBlock := e.blockNumber },
             .insertProjectRole
               { chainId := e.chainId
                 projectId := id
                 address := e.params.owner
                 role := "owner"
                 createdAtBlock := e.blockNumber }]
      else .ok []
  | "RoleGranted" =>
      match entityKind e.contractName, resolveRole e.contractName e.params.role with
      | some .program, some r =>
          .ok [.insertProjectRole
                 { chainId := e.chainId, projectId := e.address,
                   address := e.params.account, role := r,
                   createdAtBlock := e.blockNumber }]
      | some .round, some r =>
          .ok [.insertRoundRole
                 { chainId := e.chainId, roundId := e.address,
                   address := e.params.account, role := r,
                   createdAtBlock := e.blockNumber }]
      | _, _ => .ok []
  | "RoleRevoked" =>
      match entityKind e.contractName, resolveRole e.contractName e.params.role with
      | some .program, some r =>
          .ok [.deleteAllProjectRolesByRoleAndAddress
                 { chainId := e.chainId, projectId := e.address,
                   address := e.params.account, role := r }]
      | some .round, some r =>
          .ok [.deleteAllRoundRolesByRoleAndAddress
                 { chainId := e.chainId, roundId := e.address,
                   address := e.params.account, role := r }]
      | _, _ => .ok []
  | _ => .ok []

end AlloV1

namespace Prices

/-- Iterations of the `for (let i = 0; i < millis; i += chunkBy)` loop of
`chunkTimeBy`, with an explicit iteration budget (`fuel`); each iteration
pushes `[i, min(i + chunkBy, millis)]`. When `0 < chunkBy` a budget of
`millis` covers the whole loop, since `i` grows by at least 1 per step (for
`chunkBy = 0` and `0 < millis` the source loop never terminates, so the
embedding is only meaningful on the claim's domain `0 < chunkBy`). -/
def chunkTimeByGo (millis chunkBy : Nat) : Nat → Nat → List (Nat × Nat)
  | 0, _ => []
  | fuel + 1, i =>
      if i < millis then
        (i, min (i + chunkBy) millis) :: chunkTimeByGo millis chunkBy fuel (i + chunkBy)
      else []

/-- `chunkTimeBy` from the price updater service: covers `[0, millis]` in
chunks of `chunkBy` milliseconds. -/
def chunkTimeBy (millis chunkBy : Nat) : List (Nat × Nat) :=
  chunkTimeByGo millis chunkBy millis 0

end Prices

namespace Fixtures

/-- A snapshot in which every external call rejects. -/
def failSnap : Legacy.Snapshot :=
  { ipfs := fun _ => none
    ipfsApplications := fun _ => none
    applicationMetaPtr := fun _ => none
    applicationsStartTime := fun _ => none
    applicationsEndTime := fun _ => none
    roundStartTime := fun _ => none
    roundEndTime := fun _ => none
    price := fun _ _ _ _ => none }

/-- A snapshot whose price source answers with the query's upper timestamp
(a fixed, perfectly reproducible read snapshot that makes the `Voted`
handler's wall-clock dependence observable). -/
def clockSnap : Legacy.Snapshot :=
  { failSnap with price := fun _ _ _ toTs => some (toTs : ℚ) }

/-- Empty storage. -/
def emptyDB : Legacy.DB :=
  { projects := [], rounds := [], roundProjects := [], roundVotes := [],
    roundProjectVotes := [] }

/-- Storage holding one project with two owners, `0xaa` and `0xbb`. -/
def twoOwnersDB : Legacy.DB :=
  { emptyDB with projects :=
    [{ fullId := "0xf", id := 1, metaPtr := none, votesUSD := 0, votes := 0,
       owners := ["0xaa", "0xbb"] }] }

/-- `OwnerRemoved{projectID: 1, owner: "0xaa"}`. -/
def ownerRemovedEv : Legacy.Event :=
  { name := "OwnerRemoved", args := { projectID := 1, owner := "0xaa" } }

/-- A `Voted` event for project `0xp` in round `0xr`. -/
def votedEv : Legacy.Event :=
  { name := "Voted", transactionHash := "0xt",
    args := { projectId := "0xp", roundAddress := "0xr", token := "0xc0",
              voter := "0xee", grantAddress := "0xdd", amount := 10 ^ 18 } }

/-- Storage with an `APPROVED` application for `0xp` in round `0xr` and the
round itself, whose end time (1000 s) lies in the future of the clock values
used against it. -/
def votedDB : Legacy.DB :=
  { emptyDB with
    rounds := [{ id := "0xr", votesUSD := 0, votes := 0,
                 implementationAddress := "0xii",
                 applicationMetaPtr := { protocol := 0, pointer := "p" },
                 applicationMetadata := Json.null,
                 applicationsStartTime := 0, applicationsEndTime := 0,
                 roundStartTime := 0, roundEndTime := 1000 }]
    roundProjects := [("0xr", { id := "0xp", projectId := some 1,
                                roundId := "0xr", status := some "APPROVED" })] }

/-- `MetadataUpdated{projectID: 1, metaPtr: {pointer: "cid"}}`. -/
def metadataUpdatedEv : Legacy.Event :=
  { name := "MetadataUpdated", args := { projectID := 1, metaPtrPointer := "cid" } }

/-- An event whose name matches no case of the legacy handler. -/
def unknownEv : Legacy.Event := { name := "SomethingElse" }

/-- A `VotingContractCreated` event (wall-clock-free case of the handler). -/
def votingContractCreatedEv : Legacy.Event :=
  { name := "VotingContractCreated",
    args := { votingContractAddress := "0xvc" } }

/-- A `Voted` event referencing an application that is absent from storage. -/
def votedNoAppEv : Legacy.Event :=
  { name := "Voted", args := { projectId := "0xp", roundAddress := "0xr" } }

/-- A `RoleGranted` on a known round contract with a role constant outside
the role table. -/
def unknownRoleEv : AlloV1.Event :=
  { chainId := 1, contractName := "AlloV1/RoundImplementation/V1",
    name := "RoleGranted", address := "0xr4", blockNumber := 1,
    params := { role := "0x01", account := "0xa2" } }

end Fixtures

namespace Prices

theorem chunkTimeByGo_closed (millis c : Nat) (hc : 0 < c) :
    ∀ fuel i, millis ≤ i + fuel * c →
      chunkTimeByGo millis c fuel i =
        (List.range ((millis - i + c - 1) / c)).map
          fun k => (i + k * c, min (i + k * c + c) millis) := by
  intro fuel
  induction fuel with
  | zero =>
      intro i h
      have h0 : millis - i = 0 := by omega
      have h1 : (millis - i + c - 1) / c = 0 := by
        rw [h0]; exact Nat.div_eq_of_lt (by omega)
      simp [chunkTimeByGo, h1]
  | succ fuel ih =>
      intro i h
      have hstep : chunkTimeByGo millis c (fuel + 1) i =
          if i < millis then
            (i, min (i + c) millis) :: chunkTimeByGo millis c fuel (i + c)
          else [] := rfl
      by_cases hlt : i < millis
      · have hn : (millis - i + c - 1) / c = (millis - (i + c) + c - 1) / c + 1 := by
          rcases le_or_lt c (millis - i) with hle | hgt
          · have heq : millis - i + c - 1 = (millis - (i + c) + c - 1) + c := by omega
            rw [heq, Nat.add_div_right _ hc]
          · have h1 : millis - (i + c) = 0 := by omega
            have h2 : (millis - i + c - 1) / c = 1 := by
              apply Nat.div_eq_of_lt_le
              · omega
              · simpa [Nat.succ_mul] using by omega
            rw [h1, h2, Nat.div_eq_of_lt (by omega)]
        have hmul : (fuel + 1) * c = fuel * c + c := Nat.succ_mul fuel c
        have hrec := ih (i + c) (by omega)
        rw [hstep, if_pos hlt, hrec, hn, List.range_succ_eq_map, List.map_cons,
          List.map_map]
        congr 1
        · simp
        · refine List.map_congr_left fun k _ => ?_
          have hm : (k + 1) * c = k * c + c := Nat.succ_mul k c
          simp only [Function.comp_apply, Nat.succ_eq_add_one]
          congr 1 <;> omega
      · rw [hstep, if_neg hlt]
        have h0 : millis - i = 0 := by omega
        have h1 : (millis - i + c - 1) / c = 0 := by
          rw [h0]; exact Nat.div_eq_of_lt (by omega)
        simp [h1]

theorem chunkTimeBy_closed (millis c : Nat) (hc : 0 < c) :
    chunkTimeBy millis c =
      (List.range ((millis + c - 1) / c)).map
        fun k => (k * c, min (k * c + c) millis) := by
  have h := chunkTimeByGo_closed millis c hc millis 0
    (by have := Nat.le_mul_of_pos_right millis hc; omega)
  simpa [chunkTimeBy] using h

end Prices

namespace Prices

/-- Ceiling-division bound: `millis` fits inside `ceil(millis/c)` chunks. -/
theorem ceil_le_mul (millis c : Nat) (hc : 0 < c) :
    millis ≤ (millis + c - 1) / c * c := by
  have hdm := Nat.div_add_mod (millis + c - 1) c
  have hmod : (millis + c - 1) % c < c := Nat.mod_lt _ hc
  have hmc : (millis + c - 1) / c * c = c * ((millis + c - 1) / c) :=
    Nat.mul_comm _ _
  omega

/-- Ceiling division of a positive quantity is positive. -/
theorem ceil_pos (millis c : Nat) (hm : 0 < millis) (hc : 0 < c) :
    0 < (millis + c - 1) / c := by
  have hdm := Nat.div_add_mod (millis + c - 1) c
  have hmod : (millis + c - 1) % c < c := Nat.mod_lt _ hc
  by_contra h0
  have hz : (millis + c - 1) / c = 0 := Nat.le_zero.mp (Nat.not_lt.mp h0)
  rw [hz] at hdm
  omega

/-- C10: for every `millis > 0` and `chunkBy > 0`, `chunkTimeBy` returns a
non-empty list of contiguous intervals: the first starts at 0, each interval
is `[i, min(i + chunkBy, millis)]` and so has length at most `chunkBy`,
consecutive intervals abut (each start is the previous start plus `chunkBy`,
and the previous end never exceeds the next start), the last interval ends at
`millis`, and every instant below `millis` lies in some chunk — no gap, no
overlap. -/
theorem chunkTimeBy_partitions (millis c : Nat) (hm : 0 < millis) (hc : 0 < c) :
    chunkTimeBy millis c ≠ [] ∧
    (chunkTimeBy millis c).head?.map Prod.fst = some 0 ∧
    (∀ p ∈ chunkTimeBy millis c, p.2 = min (p.1 + c) millis ∧ p.2 - p.1 ≤ c) ∧
    (∀ k p q, (chunkTimeBy millis c).get? k = some p →
        (chunkTimeBy millis c).get? (k + 1) = some q →
        q.1 = p.1 + c ∧ p.2 ≤ q.1) ∧
    (chunkTimeBy millis c).getLast?.map Prod.snd = some millis ∧
    (∀ t, t < millis → ∃ p ∈ chunkTimeBy millis c, p.1 ≤ t ∧ t < p.2) := by
  have hclosed := chunkTimeBy_closed millis c hc
  have hcm0 := ceil_le_mul millis c hc
  have hpos := ceil_pos millis c hm hc
  obtain ⟨m, hm1⟩ : ∃ m, (millis + c - 1) / c = m + 1 :=
    ⟨(millis + c - 1) / c - 1, by omega⟩
  have hcm : millis ≤ (m + 1) * c := by rw [hm1] at hcm0; exact hcm0
  have hsm : (m + 1) * c = m * c + c := Nat.succ_mul m c
  refine ⟨?_, ?_, ?_, ?_, ?_, ?_⟩
  · rw [hclosed]
    intro hnil
    have hlen := congrArg List.length hnil
    simp only [List.length_map, List.length_range, List.length_nil] at hlen
    omega
  · rw [hclosed, hm1, List.range_succ_eq_map]
    simp
  · rw [hclosed]
    intro p hp
    simp only [List.mem_map, List.mem_range] at hp
    obtain ⟨k, hk, rfl⟩ := hp
    refine ⟨rfl, ?_⟩
    simp only [Nat.min_def]
    split <;> omega
  · rw [hclosed]
    intro k p q hp hq
    have hklen : k + 1 < (millis + c - 1) / c := by
      by_contra hge
      have hnone : ((List.range ((millis + c - 1) / c)).map
          (fun k => (k * c, min (k * c + c) millis))).get? (k + 1) = none := by
        rw [List.get?_eq_none]
        simp only [List.length_map, List.length_range]
        omega
      rw [hnone] at hq
      exact Option.noConfusion hq
    have hk : k < (millis + c - 1) / c := by omega
    rw [List.get?_map, List.get?_range hk, Option.map_some'] at hp
    rw [List.get?_map, List.get?_range hklen, Option.map_some'] at hq
    have hp' := (Option.some_inj.mp hp).symm
    have hq' := (Option.some_inj.mp hq).symm
    subst hp'
    subst hq'
    have hsk : (k + 1) * c = k * c + c := Nat.succ_mul k c
    constructor
    · simp only
      omega
    · simp only [Nat.min_def]
      split <;> omega
  · rw [hclosed, hm1, List.range_succ, List.map_append, List.map_cons, List.map_nil,
      List.getLast?_concat, Option.map_some']
    have hml : millis ≤ m * c + c := by omega
    have : min (m * c + c) millis = millis := Nat.min_eq_right hml
    rw [this]
  · intro t ht
    rw [hclosed]
    have h1 := Nat.div_add_mod t c
    have h2 : t % c < c := Nat.mod_lt _ hc
    have h3 : t / c * c = c * (t / c) := Nat.mul_comm _ _
    refine ⟨(t / c * c, min (t / c * c + c) millis), ?_, ?_, ?_⟩
    · simp only [List.mem_map, List.mem_range]
      refine ⟨t / c, ?_, rfl⟩
      rw [hm1, Nat.div_lt_iff_lt_mul hc]
      omega
    · exact Nat.div_mul_le_self t c
    · rw [lt_min_iff]
      omega

end Prices

/-- C10 witness. -/
theorem chunkTimeBy_partitions_witness : Prices.chunkTimeBy 5 2 ≠ [] :=
  (Prices.chunkTimeBy_partitions 5 2 (by decide) (by decide)).1

/-- C1: for every `ProjectCreated` event (on either project registry
version), the handler produces exactly two changesets, in order: first an
`InsertProject` with the derived project id, empty name, tag `allo-v1` and no
metadata, then an `InsertProjectRole` for the event's owner with role `owner`
and the same project id. -/
theorem projectCreated_two_changesets (chainId pid bn : Nat) (registry owner : String) :
    (AlloV1.handleEvent
      { chainId := chainId, contractName := "AlloV1/ProjectRegistry/V1",
        name := "ProjectCreated", address := registry, blockNumber := bn,
        params := { projectID := pid, owner := owner } } =
      .ok [.insertProject
             { chainId := chainId, id := fullProjectId chainId pid registry,
               name := "", metadata := none, metadataCid := none,
               projectNumber := some pid, registryAddress := registry,
               tags := ["allo-v1"], createdAtBlock := bn, updatedAtBlock := bn },
           .insertProjectRole
             { chainId := chainId,
               projectId := fullProjectId chainId pid registry,
               address := owner, role := "owner", createdAtBlock := bn }]) ∧
    (AlloV1.handleEvent
      { chainId := chainId, contractName := "AlloV1/ProjectRegistry/V2",
        name := "ProjectCreated", address := registry, blockNumber := bn,
        params := { projectID := pid, owner := owner } } =
      .ok [.insertProject
             { chainId := chainId, id := fullProjectId chainId pid registry,
               name := "", metadata := none, metadataCid := none,
               projectNumber := some pid, registryAddress := registry,
               tags := ["allo-v1"], createdAtBlock := bn, updatedAtBlock := bn },
           .insertProjectRole
             { chainId := chainId,
               projectId := fullProjectId chainId pid registry,
               address := owner, role := "owner", createdAtBlock := bn }]) :=
  ⟨rfl, rfl⟩

/-- C5 counterexample: the secondary ("manager") role constant is NOT
distinct between the V1 and V2 round implementations — the role table
(pinned by the repository's V1 and V2 manager tests) carries the same hash
for both versions, and that one hash resolves to `manager` under both. -/
theorem roundSecondaryConstant_not_distinct :
    AlloV1.secondaryRoleConstant "AlloV1/RoundImplementation/V1" =
      AlloV1.secondaryRoleConstant "AlloV1/RoundImplementation/V2" ∧
    AlloV1.resolveRole "AlloV1/RoundImplementation/V1" AlloV1.roundOperatorRole =
      some "manager" ∧
    AlloV1.resolveRole "AlloV1/RoundImplementation/V2" AlloV1.roundOperatorRole =
      some "manager" :=
  ⟨rfl, rfl, rfl⟩

/-- C5 (amended): for every known `(contract family, version)` pair the
all-zero constant resolves to the entity's top role (`owner` for programs,
`admin` for rounds) and the version's secondary constant — the same fixed
hash for the V1 and V2 round implementations — resolves to the secondary
role (`member` for programs, `manager` for rounds); a `RoleGranted` carrying
such a constant yields the corresponding `InsertProjectRole` /
`InsertRoundRole` changeset. -/
theorem roleTable_coverage (chainId bn : Nat) (addr account : String) :
    AlloV1.resolveRole "AlloV1/ProgramImplementation/V1" AlloV1.zeroRole = some "owner" ∧
    AlloV1.resolveRole "AlloV1/ProgramImplementation/V1" AlloV1.programMemberRole = some "member" ∧
    AlloV1.resolveRole "AlloV1/RoundImplementation/V1" AlloV1.zeroRole = some "admin" ∧
    AlloV1.resolveRole "AlloV1/RoundImplementation/V1" AlloV1.roundOperatorRole = some "manager" ∧
    AlloV1.resolveRole "AlloV1/RoundImplementation/V2" AlloV1.zeroRole = some "admin" ∧
    AlloV1.resolveRole "AlloV1/RoundImplementation/V2" AlloV1.roundOperatorRole = some "manager" ∧
    AlloV1.handleEvent
      { chainId := chainId, contractName := "AlloV1/ProgramImplementation/V1",
        name := "RoleGranted", address := addr, blockNumber := bn,
        params := { role := AlloV1.zeroRole, account := account } } =
      .ok [.insertProjectRole
             { chainId := chainId, projectId := addr, address := account,
               role := "owner", createdAtBlock := bn }] ∧
    AlloV1.handleEvent
      { chainId := chainId, contractName := "AlloV1/ProgramImplementation/V1",
        name := "RoleGranted", address := addr, blockNumber := bn,
        params := { role := AlloV1.programMemberRole, account := account } } =
      .ok [.insertProjectRole
             { chainId := chainId, projectId := addr, address := account,
               role := "member", createdAtBlock := bn }] ∧
    AlloV1.handleEvent
      { chainId := chainId, contractName := "AlloV1/RoundImplementation/V1",
        name := "RoleGranted", address := addr, blockNumber := bn,
        params := { role := AlloV1.zeroRole, account := account } } =
      .ok [.insertRoundRole
             { chainId := chainId, roundId := addr, address := account,
               role := "admin", createdAtBlock := bn }] ∧
    AlloV1.handleEvent
      { chainId := chainId, contractName := "AlloV1/RoundImplementation/V1",
        name := "RoleGranted", address := addr, blockNumber := bn,
        params := { role := AlloV1.roundOperatorRole, account := account } } =
      .ok [.insertRoundRole
             { chainId := chainId, roundId := addr, address := account,
               role := "manager", createdAtBlock := bn }] ∧
    AlloV1.handleEvent
      { chainId := chainId, contractName := "AlloV1/RoundImplementation/V2",
        name := "RoleGranted", address := addr, blockNumber := bn,
        params := { role := AlloV1.zeroRole, account := account } } =
      .ok [.insertRoundRole
             { chainId := chainId, roundId := addr, address := account,
               role := "admin", createdAtBlock := bn }] ∧
    AlloV1.handleEvent
      { chainId := chainId, contractName := "AlloV1/RoundImplementation/V2",
        name := "RoleGranted", address := addr, blockNumber := bn,
        params := { role := AlloV1.roundOperatorRole, account := account } } =
      .ok [.insertRoundRole
             { chainId := chainId, roundId := addr, address := account,
               role := "manager", createdAtBlock := bn }] :=
  ⟨rfl, rfl, rfl, rfl, rfl, rfl, rfl, rfl, rfl, rfl, rfl, rfl⟩

/-- C6: a `RoleGranted` or `RoleRevoked` whose role constant is neither the
all-zero constant nor the contract's secondary constant produces zero
changesets and returns successfully — never an error. -/
theorem unknownRoleConstant_no_changesets (e : AlloV1.Event)
    (hname : e.name = "RoleGranted" ∨ e.name = "RoleRevoked")
    (hzero : e.params.role ≠ AlloV1.zeroRole)
    (hsec : some e.params.role ≠ AlloV1.secondaryRoleConstant e.contractName) :
    AlloV1.handleEvent e = .ok [] := by
  have hres : AlloV1.resolveRole e.contractName e.params.role = none := by
    unfold AlloV1.resolveRole
    rw [if_neg, if_neg]
    · simpa using hsec
    · simpa using hzero
  rcases hname with h | h <;>
    cases hek : AlloV1.entityKind e.contractName with
    | none => simp [AlloV1.handleEvent, h, hek, hres]
    | some k => cases k <;> simp [AlloV1.handleEvent, h, hek, hres]

/-- C6 witness. -/
theorem unknownRoleConstant_no_changesets_witness :
    AlloV1.handleEvent Fixtures.unknownRoleEv = .ok [] :=
  unknownRoleConstant_no_changesets Fixtures.unknownRoleEv (Or.inl rfl)
    (by decide) (by decide)

/-- C8: for every event whose name is not one of the nine handled cases, the
legacy handler returns normally and performs no storage mutation at all — an
unrecognized event name is silently a no-op, not an error. -/
theorem unhandled_event_noop (chainId now : Nat) (e : Legacy.Event)
    (s : Legacy.Snapshot) (db : Legacy.DB)
    (h : e.name ∉ ["ProjectCreated", "MetadataUpdated", "OwnerAdded",
      "OwnerRemoved", "RoundCreated", "NewProjectApplication",
      "ProjectsMetaPtrUpdated", "VotingContractCreated", "Voted"]) :
    Legacy.handleEvent chainId now e s db = (db, none) := by
  simp only [List.mem_cons, List.not_mem_nil, or_false, not_or] at h
  obtain ⟨h1, h2, h3, h4, h5, h6, h7, h8, h9⟩ := h
  unfold Legacy.handleEvent
  split <;> simp_all

/-- C8 witness. -/
theorem unhandled_event_noop_witness :
    Legacy.handleEvent 1 0 Fixtures.unknownEv Fixtures.failSnap Fixtures.emptyDB =
      (Fixtures.emptyDB, none) :=
  unhandled_event_noop 1 0 Fixtures.unknownEv Fixtures.failSnap Fixtures.emptyDB
    (by decide)

/-- C9: for every `Voted` event, if the referenced project application is
absent, or its status is not `APPROVED`, or the referenced round is absent,
the handler returns without inserting any vote record into either votes
collection — storage is entirely unchanged and no error is raised. -/
theorem voted_guard_no_mutation (chainId now : Nat) (e : Legacy.Event)
    (s : Legacy.Snapshot) (db : Legacy.DB) (hname : e.name = "Voted")
    (h : Legacy.votedApplication db e = none ∨
      (∃ pa, Legacy.votedApplication db e = some pa ∧ pa.status ≠ some "APPROVED") ∨
      Legacy.votedRound db e = none) :
    Legacy.handleEvent chainId now e s db = (db, none) := by
  have hv : Legacy.handleEvent chainId now e s db =
      Legacy.handleVoted chainId now e s db := by
    unfold Legacy.handleEvent
    split <;> simp_all
  rw [hv]
  unfold Legacy.handleVoted
  rcases h with h | ⟨pa, hpa, hst⟩ | h
  · rw [h]
  · rw [hpa]
    cases hr : Legacy.votedRound db e with
    | none => rfl
    | some round =>
        have hb : (pa.status == some "APPROVED") = false := by
          simpa using hst
        simp [hb]
  · rw [h]
    cases Legacy.votedApplication db e <;> rfl

/-- C9 witness. -/
theorem voted_guard_no_mutation_witness :
    Legacy.handleEvent 1 0 Fixtures.votedNoAppEv Fixtures.failSnap Fixtures.emptyDB =
      (Fixtures.emptyDB, none) :=
  voted_guard_no_mutation 1 0 Fixtures.votedNoAppEv Fixtures.failSnap
    Fixtures.emptyDB rfl (Or.inl rfl)

/-- C2, evaluated at the failing input: handling
`OwnerRemoved{projectID: 1, owner: "0xaa"}` against a project owned by
`0xaa` and `0xbb` succeeds and leaves `owners = ["0xaa"]` — the
`owners.filter(o => o == owner)` in the source keeps exactly the entries
equal to the removed owner and deletes every other owner, the opposite of
the claimed post-state in which no `0xaa` entry remains. -/
theorem ownerRemoved_keeps_removed_owner :
    (Legacy.handleEvent 1 0 Fixtures.ownerRemovedEv Fixtures.failSnap
        Fixtures.twoOwnersDB).1.projects.map (fun p => p.owners) = [["0xaa"]] ∧
    (Legacy.handleEvent 1 0 Fixtures.ownerRemovedEv Fixtures.failSnap
        Fixtures.twoOwnersDB).2 = none := by
  constructor <;> rfl

/-- C3 counterexample: one `Voted` event, one fixed read snapshot, but two
different wall-clock instants (100 s and 200 s, both before the round's end)
produce different storage: `new Date()` flows into the `toTimestamp` of the
USD conversion, so the recorded `amountUSD` differs. -/
theorem voted_depends_on_wall_clock :
    Legacy.handleEvent 1 (100 * 1000) Fixtures.votedEv Fixtures.clockSnap
        Fixtures.votedDB ≠
      Legacy.handleEvent 1 (200 * 1000) Fixtures.votedEv Fixtures.clockSnap
        Fixtures.votedDB := by
  intro h
  have h2 := congrArg (fun r => r.1.roundVotes.map fun v => v.2.amountUSD) h
  simp only at h2
  have e1 : (Legacy.handleEvent 1 (100 * 1000) Fixtures.votedEv Fixtures.clockSnap
      Fixtures.votedDB).1.roundVotes.map (fun v => v.2.amountUSD) =
      [((10 ^ 18 : Nat) : ℚ) / 10 ^ 18 * ((100 : Nat) : ℚ)] := rfl
  have e2 : (Legacy.handleEvent 1 (200 * 1000) Fixtures.votedEv Fixtures.clockSnap
      Fixtures.votedDB).1.roundVotes.map (fun v => v.2.amountUSD) =
      [((10 ^ 18 : Nat) : ℚ) / 10 ^ 18 * ((200 : Nat) : ℚ)] := rfl
  rw [e1, e2] at h2
  norm_num at h2

/-- C3 (amended): with the wall clock as an explicit input, the handler is a
pure function of `(event, snapshot, storage, clock)`, and for every event
other than `Voted` its result does not depend on the clock at all; only the
`Voted` case reads `new Date()` (its USD conversion follows the clock while
the round's end lies in the future, as the counterexample shows). -/
theorem handler_clock_free_except_voted (chainId now1 now2 : Nat)
    (e : Legacy.Event) (s : Legacy.Snapshot) (db : Legacy.DB)
    (h : e.name ≠ "Voted") :
    Legacy.handleEvent chainId now1 e s db =
      Legacy.handleEvent chainId now2 e s db := by
  unfold Legacy.handleEvent
  split <;> simp_all

/-- C3 amended witness. -/
theorem handler_clock_free_except_voted_witness :
    Legacy.handleEvent 1 0 Fixtures.votingContractCreatedEv Fixtures.failSnap
        Fixtures.emptyDB =
      Legacy.handleEvent 1 999 Fixtures.votingContractCreatedEv Fixtures.failSnap
        Fixtures.emptyDB :=
  handler_clock_free_except_voted 1 0 999 Fixtures.votingContractCreatedEv
    Fixtures.failSnap Fixtures.emptyDB (by decide)

/-- `updateProjectById` can only fail with the storage-layer `notFound`
error, and a failing update leaves storage unchanged. -/
theorem updateProjectById_error_unchanged (db : Legacy.DB) (pid : Nat)
    (f : Legacy.Project → Legacy.Project) (db2 : Legacy.DB) (err : Legacy.Err)
    (h : Legacy.updateProjectById db pid f = (db2, some err)) :
    db2 = db ∧ err.isExternal = false := by
  unfold Legacy.updateProjectById at h
  split at h
  · simp at h
  · injection h with h1 h2
    injection h2 with h3
    subst h3
    exact ⟨h1.symm, rfl⟩

/-- The `ProjectsMetaPtrUpdated` update loop can only fail with the
storage-layer `notFound` error, never with an external read failure. -/
theorem applyAppStatuses_error_internal (a : String) :
    ∀ (l : List Legacy.AppStatus) (db db2 : Legacy.DB) (err : Legacy.Err),
      Legacy.applyAppStatuses a l db = (db2, some err) →
      err.isExternal = false := by
  intro l
  induction l with
  | nil =>
      intro db db2 err h
      simp [Legacy.applyAppStatuses] at h
  | cons pa rest ih =>
      intro db db2 err h
      simp only [Legacy.applyAppStatuses] at h
      split at h
      · exact ih _ _ _ h
      · injection h with h1 h2
        injection h2 with h3
        subst h3
        rfl

/-- Whenever the `Voted` case throws, storage is unchanged (its only throw
is the price lookup, which precedes both inserts). -/
theorem handleVoted_error_unchanged (chainId now : Nat) (e : Legacy.Event)
    (s : Legacy.Snapshot) (db db2 : Legacy.DB) (err : Legacy.Err)
    (h : Legacy.handleVoted chainId now e s db = (db2, some err)) :
    db2 = db := by
  simp only [Legacy.handleVoted] at h
  split at h
  · split at h
    · split at h
      · injection h with h1 h2
        exact h1.symm
      · simp at h
    · simp at h
  all_goals simp at h

/-- C4: an external-read failure aborts the whole event. Whenever the legacy
handler surfaces a fetch/read/price error, storage is exactly the input
storage — no partial mutation; and for `MetadataUpdated` in particular, an
ipfs fetch failure propagates as `fetchFailed` with storage untouched. (The
only non-atomic failure is the storage layer's own `notFound` inside the
`ProjectsMetaPtrUpdated` loop, which is not an external-read failure.) -/
theorem externalFailure_aborts_event (chainId now : Nat) (e : Legacy.Event)
    (s : Legacy.Snapshot) (db : Legacy.DB) :
    (∀ db2 err, Legacy.handleEvent chainId now e s db = (db2, some err) →
        err.isExternal = true → db2 = db) ∧
    (e.name = "MetadataUpdated" → s.ipfs e.args.metaPtrPointer = none →
        Legacy.handleEvent chainId now e s db =
          (db, some (.fetchFailed e.args.metaPtrPointer))) := by
  constructor
  · intro db2 err heq hext
    unfold Legacy.handleEvent at heq
    split at heq
    · simp at heq
    · split at heq
      · injection heq with h1 h2
        exact h1.symm
      · split at heq <;> simp at heq
    · exact (updateProjectById_error_unchanged _ _ _ _ _ heq).1
    · exact (updateProjectById_error_unchanged _ _ _ _ _ heq).1
    · repeat' split at heq
      all_goals first
        | (injection heq with h1 h2; exact h1.symm)
        | simp at heq
    · simp at heq
    · split at heq
      · injection heq with h1 h2
        exact h1.symm
      · have hint := applyAppStatuses_error_internal _ _ _ _ _ heq
        rw [hint] at hext
        exact Bool.noConfusion hext
    · simp at heq
    · exact handleVoted_error_unchanged _ _ _ _ _ _ _ heq
    · simp at heq
  · intro h1 h2
    simp [Legacy.handleEvent, h1, h2]

/-- C4 witness. -/
theorem externalFailure_aborts_event_witness :
    Legacy.handleEvent 1 0 Fixtures.metadataUpdatedEv Fixtures.failSnap
        Fixtures.emptyDB =
      (Fixtures.emptyDB, some (.fetchFailed "cid")) :=
  (externalFailure_aborts_event 1 0 Fixtures.metadataUpdatedEv Fixtures.failSnap
      Fixtures.emptyDB).2 rfl rfl

set_option maxRecDepth 1000000 in
/-- The embedded keccak-256 reproduces the standard empty-input digest. -/
theorem keccak256_empty_vector :
    Keccak.bytesToHex (Keccak.keccak256 []) =
      "c5d2460186f7233c927e7db2dcc703c0e500b653ca82273b7bfad8045d85a470" := by
  decide

set_option maxRecDepth 1000000 in
/-- C7 support: `fullProjectId` is deterministic and total by construction
(a pure Lean function), and it reproduces the project id pinned by the
repository's `ProjectCreated` test: chain 1, registry `0x…01`, project 1. -/
theorem fullProjectId_matches_test_vector :
    fullProjectId 1 1 "0x0000000000000000000000000000000000000001" =
      "0xe31382b762a33e568e1e9ef38d64f4a2b4dbb51ec0f79ec41779fc5be79ead32" := by
  decide

set_option maxRecDepth 1000000 in
/-- C7 support: on the test vector's registry, chains 1 and 2 derive
different ids for the same project number — a spot check of the cross-chain
separation that the spec attributes to hashing the chain id (the universal
statement is keccak collision-freeness and is not decidable here). -/
theorem fullProjectId_chain_spot_check :
    fullProjectId 1 1 "0x0000000000000000000000000000000000000001" ≠
      fullProjectId 2 1 "0x0000000000000000000000000000000000000001" := by
  decide
